import Mathlib

/-!
Verification of the semantic similarity search core of the repository
(src/app/embedding_utils.py): the embedding provider adapter
(create_embedding / create_embeddings_batch), the similarity ranker
(cosine_similarity / find_similar_texts) and the composed semantic_search.

Modelling conventions for the shallow embedding:

* Python floats are modelled as rationals (ℚ).  numpy's square root inside
  np.linalg.norm is modelled by the rational-valued ratSqrt below (an integer
  square root on numerator and denominator).  Every property proved here is
  insensitive to the exact values of the square root away from zero; what
  matters is that it maps 0 to 0, as the real square root does.
* Python str.strip() is modelled by pyStrip, dropping leading and trailing
  whitespace characters.
* The external OpenAI provider is a parameter: a function from the request
  inputs to the returned vectors.  Both embedding entry points also return
  the list of provider calls they issued, so that call counts and call
  arguments are part of the model.  create_embedding takes the single-input
  provider f : String → List ℚ; create_embeddings_batch takes the batched
  provider P : List String → List (List ℚ) (one request, many inputs).
* Fallible code returns Option / Except.  create_embedding returns none for
  the ValueError raised on empty-after-strip input (the spec's
  InvalidInputError).  find_similar_texts returns none for the IndexError
  that texts[i] raises when i is out of range; the code contains no explicit
  length check and no InvariantViolationError.
* Python's list.sort(key=..., reverse=True) is a stable descending sort.  A
  stable sort is extensionally unique, so it is modelled by insertion sort
  with the decidable total preorder scoreGE (greater-or-equal on the score
  component), which is stable and kernel-evaluable.
* Python's slice similarities[:top_k] for an arbitrary integer top_k is
  modelled by pySliceTo, including the negative-index semantics
  (l[:k] = all but the last |k| elements when k < 0).
-/

namespace EmbeddingUtils

/-- Python `text.strip()`: drop leading and trailing whitespace. -/
def pyStrip (s : String) : String :=
  String.mk (((s.data.dropWhile Char.isWhitespace).reverse.dropWhile Char.isWhitespace).reverse)

/-- Largest j ≤ k with j * j ≤ n (0 when there is none): bounded search for
an integer square root, structurally recursive so the kernel can evaluate it. -/
def isqrtAux : ℕ → ℕ → ℕ
  | 0, _ => 0
  | (k+1), n => if (k+1) * (k+1) ≤ n then k+1 else isqrtAux k n

/-- Integer square root (largest j with j * j ≤ n). -/
def isqrt (n : ℕ) : ℕ := isqrtAux n n

/-- Rational model of the float square root used by np.linalg.norm: integer
square roots of numerator and denominator.  ratSqrt 0 = 0, matching the real
square root at the only point any proof below depends on. -/
def ratSqrt (q : ℚ) : ℚ := (isqrt q.num.toNat : ℚ) / (isqrt q.den : ℚ)

/-- np.dot of two equal-length vectors (zipWith truncates to the shorter,
which never matters on the equal-length inputs the claims quantify over). -/
def dot (v w : List ℚ) : ℚ := (List.zipWith (fun a b => a * b) v w).sum

/-- np.linalg.norm of a vector: square root of the dot product with itself. -/
def norm (v : List ℚ) : ℚ := ratSqrt (dot v v)

/-- EmbeddingService.cosine_similarity: dot(a,b) / (‖a‖·‖b‖), with the
explicit zero-norm guard of the source (`if norm1 == 0 or norm2 == 0: return 0.0`). -/
def cosine_similarity (embedding1 embedding2 : List ℚ) : ℚ :=
  if norm embedding1 = 0 ∨ norm embedding2 = 0 then 0
  else dot embedding1 embedding2 / (norm embedding1 * norm embedding2)

/-- EmbeddingService.create_embedding: strips the text, raises ValueError
("Empty text cannot be embedded", the spec's InvalidInputError, modelled as
none) when the stripped text is empty, otherwise issues exactly one provider
call with the stripped text.  Second component: the provider call log. -/
def create_embedding (f : String → List ℚ) (text : String) :
    Option (List ℚ) × List String :=
  let t := pyStrip text
  if t = "" then (none, []) else (some (f t), [t])

/-- `[text.strip() for text in texts if text.strip()]`: strip every text and
drop the ones that strip to empty. -/
def cleaned_texts (texts : List String) : List String :=
  texts.filterMap (fun t => if pyStrip t = "" then none else some (pyStrip t))

/-- `batch_size = 2048`: the provider's request-size ceiling. -/
def batch_size : ℕ := 2048

/-- The loop `for i in range(0, len(l), B): l[i:i+B]`: Python's range
enumerates i = k·B for k < ⌈len(l)/B⌉, and each slice is drop (k·B) then
take B. -/
def batches (B : ℕ) (l : List α) : List (List α) :=
  (List.range ((l.length + B - 1) / B)).map (fun k => (l.drop (k * B)).take B)

/-- EmbeddingService.create_embeddings_batch: clean the texts, return [] at
once when nothing is left, otherwise issue one provider call per batch of at
most batch_size cleaned texts and concatenate the per-call results.  Second
component: the provider call log (the inputs of each issued call, in order). -/
def create_embeddings_batch (P : List String → List (List ℚ)) (texts : List String) :
    List (List ℚ) × List (List String) :=
  let cleaned := cleaned_texts texts
  if cleaned = [] then ([], [])
  else (((batches batch_size cleaned).map P).flatten, batches batch_size cleaned)

/-- The sort order of `similarities.sort(key=lambda x: x[1], reverse=True)`:
a is allowed to precede b when a's score is at least b's. -/
def scoreGE (a b : String × ℚ) : Prop := b.2 ≤ a.2

instance : DecidableRel scoreGE := fun a b => inferInstanceAs (Decidable (b.2 ≤ a.2))

instance : IsTotal (String × ℚ) scoreGE := ⟨fun a b => le_total b.2 a.2⟩

instance : IsTrans (String × ℚ) scoreGE := ⟨fun _ _ _ h1 h2 => le_trans h2 h1⟩

/-- The accumulation loop of find_similar_texts: for each candidate vector in
order, score it against the query and append (texts[i], score) when the score
reaches the threshold.  none models the IndexError Python raises when the
loop evaluates texts[i] for an i outside texts — the source has no length
check, so this is the only way a length mismatch can surface. -/
def collectSims (query : List ℚ) (texts : List String) (threshold : ℚ) :
    ℕ → List (List ℚ) → Option (List (String × ℚ))
  | _, [] => some []
  | i, e :: es =>
    let s := cosine_similarity query e
    if threshold ≤ s then
      match texts[i]? with
      | none => none
      | some t => (collectSims query texts threshold (i + 1) es).map (fun rest => (t, s) :: rest)
    else collectSims query texts threshold (i + 1) es

/-- Python's slice l[:k] for an arbitrary integer k: the first k elements for
k ≥ 0 (clamped to the length), everything but the last |k| for k < 0. -/
def pySliceTo (k : ℤ) (l : List α) : List α :=
  l.take (if 0 ≤ k then k.toNat else ((l.length : ℤ) + k).toNat)

/-- EmbeddingService.find_similar_texts: collect the (text, score) pairs with
score ≥ threshold, sort them stably by score descending, return the slice
[:top_k].  none models the IndexError of the collection loop. -/
def find_similar_texts (query_embedding : List ℚ) (text_embeddings : List (List ℚ))
    (texts : List String) (top_k : ℤ) (threshold : ℚ) : Option (List (String × ℚ)) :=
  (collectSims query_embedding texts threshold 0 text_embeddings).map
    (fun similarities => pySliceTo top_k (List.insertionSort scoreGE similarities))

/-- The exceptions semantic_search can propagate: the ValueError of
create_embedding on an empty-after-strip query (the spec's
InvalidInputError) and the IndexError of find_similar_texts. -/
inductive PyError where
  | invalidInput : PyError
  | indexError : PyError
deriving DecidableEq, Repr

/-- semantic_search: embed the query, embed the documents in batch, then rank.
The third argument of find_similar_texts is the original `documents` list,
exactly as in the source — not the cleaned list whose vectors were produced. -/
def semantic_search (f : String → List ℚ) (query : String) (documents : List String)
    (top_k : ℤ) (threshold : ℚ) : Except PyError (List (String × ℚ)) :=
  match (create_embedding f query).1 with
  | none => Except.error PyError.invalidInput
  | some query_embedding =>
    match find_similar_texts query_embedding
        (create_embeddings_batch (fun l => l.map f) documents).1
        documents top_k threshold with
    | none => Except.error PyError.indexError
    | some results => Except.ok results

theorem dot_nil_left (w : List ℚ) : dot [] w = 0 := by simp [dot]

theorem dot_nil_right (v : List ℚ) : dot v [] = 0 := by simp [dot]

theorem dot_cons (a b : ℚ) (v w : List ℚ) : dot (a :: v) (b :: w) = a * b + dot v w := by
  simp [dot]

theorem dot_comm (v w : List ℚ) : dot v w = dot w v := by
  induction v generalizing w with
  | nil => cases w <;> simp [dot]
  | cons a v ih =>
    cases w with
    | nil => simp [dot]
    | cons b w => rw [dot_cons, dot_cons, mul_comm, ih]

theorem dot_self_eq_zero (v : List ℚ) (h : ∀ x ∈ v, x = 0) : dot v v = 0 := by
  induction v with
  | nil => simp [dot]
  | cons a v ih =>
    rw [dot_cons, h a (by simp), ih (fun x hx => h x (by simp [hx]))]
    ring

theorem ratSqrt_zero : ratSqrt 0 = 0 := by
  have h1 : (0 : ℚ).num.toNat = 0 := by decide
  have h2 : (0 : ℚ).den = 1 := by decide
  simp [ratSqrt, h1, h2, isqrt, isqrtAux]

/-- C8: cosine_similarity is symmetric on equal-length vectors. -/
theorem score_symm (a b : List ℚ) (h : a.length = b.length) :
    cosine_similarity a b = cosine_similarity b a := by
  unfold cosine_similarity
  rw [dot_comm a b, mul_comm (norm a) (norm b)]
  exact if_congr or_comm rfl rfl

/-- C8 witness at a concrete input. -/
theorem score_symm_witness :
    cosine_similarity [1, 2] [3, 4] = cosine_similarity [3, 4] [1, 2] :=
  score_symm [1, 2] [3, 4] rfl

/-- C9: on equal-length vectors at least one of which is all-zero,
cosine_similarity returns exactly 0 (the zero-norm guard fires; in this total
rational model there is no NaN or infinity to produce). -/
theorem score_zero_vector (a b : List ℚ) (hlen : a.length = b.length)
    (h : (∀ x ∈ a, x = 0) ∨ (∀ x ∈ b, x = 0)) : cosine_similarity a b = 0 := by
  unfold cosine_similarity
  rcases h with h | h
  · rw [if_pos (Or.inl (by rw [norm, dot_self_eq_zero a h, ratSqrt_zero]))]
  · rw [if_pos (Or.inr (by rw [norm, dot_self_eq_zero b h, ratSqrt_zero]))]

/-- C9 witness at a concrete input. -/
theorem score_zero_vector_witness : cosine_similarity [0, 0] [1, 2] = 0 :=
  score_zero_vector [0, 0] [1, 2] rfl (Or.inl (by decide))

/-- C10: create_embedding on a text that strips to empty returns the
ValueError outcome (the spec's InvalidInputError) and an empty provider call
log, for every provider. -/
theorem embed_one_invalid_input (f : String → List ℚ) (text : String)
    (h : pyStrip text = "") : create_embedding f text = (none, []) := by
  simp [create_embedding, h]

/-- C10 witness: both "" and "   " strip to empty and are rejected without a
provider call. -/
theorem embed_one_invalid_input_witness :
    create_embedding (fun _ => [1]) "" = (none, [])
    ∧ create_embedding (fun _ => [1]) "   " = (none, []) :=
  ⟨embed_one_invalid_input (fun _ => [1]) "" (by decide),
   embed_one_invalid_input (fun _ => [1]) "   " (by decide)⟩

/-- C6: create_embeddings_batch on a list whose members all strip to empty
(including the empty list) returns an empty vector sequence and issues no
provider call, for every provider. -/
theorem embed_many_all_blank (P : List String → List (List ℚ)) (texts : List String)
    (h : ∀ t ∈ texts, pyStrip t = "") : create_embeddings_batch P texts = ([], []) := by
  have hc : cleaned_texts texts = [] := by
    refine List.filterMap_eq_nil_iff.mpr (fun t ht => ?_)
    simp [h t ht]
  simp [create_embeddings_batch, hc]

/-- C6 witness at a concrete whitespace-only input. -/
theorem embed_many_all_blank_witness :
    create_embeddings_batch (fun l => l.map (fun _ => [1])) ["", "   "] = ([], []) :=
  embed_many_all_blank (fun l => l.map (fun _ => [1])) ["", "   "] (by decide)

theorem batches_nil (B : ℕ) : batches B ([] : List α) = [] := by
  have h : (0 + B - 1) / B = 0 := by
    rcases Nat.eq_zero_or_pos B with h | h
    · simp [h]
    · exact Nat.div_eq_of_lt (by omega)
  simp only [batches, List.length_nil, h, List.range_zero, List.map_nil]

theorem batches_cons (B : ℕ) (hB : 0 < B) (l : List α) (hl : l ≠ []) :
    batches B l = l.take B :: batches B (l.drop B) := by
  have hn : 0 < l.length := List.length_pos.mpr hl
  have hcount : (l.length + B - 1) / B = ((l.drop B).length + B - 1) / B + 1 := by
    rw [List.length_drop]
    rcases le_total B l.length with h | h
    · have e : l.length + B - 1 = (l.length - B + B - 1) + B := by omega
      rw [e, Nat.add_div_right _ hB]
    · have e1 : l.length - B = 0 := by omega
      rw [e1]
      have lo : 1 ≤ (l.length + B - 1) / B := (Nat.one_le_div_iff hB).mpr (by omega)
      have hi : (l.length + B - 1) / B < 2 := (Nat.div_lt_iff_lt_mul hB).mpr (by omega)
      have z : (0 + B - 1) / B = 0 := Nat.div_eq_of_lt (by omega)
      omega
  rw [batches, batches, hcount, List.range_succ_eq_map, List.map_cons, List.map_map]
  refine congrArg₂ _ (by simp) ?_
  refine List.map_congr_left (fun k _ => ?_)
  have e2 : Nat.succ k * B = B + k * B := by
    rw [Nat.succ_mul, Nat.add_comm]
  simp only [Function.comp_apply, e2, ← List.drop_drop]

theorem batches_flatten_aux (B : ℕ) (hB : 0 < B) :
    ∀ (n : ℕ) (l : List α), l.length ≤ n → (batches B l).flatten = l := by
  intro n
  induction n with
  | zero =>
    intro l h
    have hl : l = [] := List.length_eq_zero.mp (Nat.le_zero.mp h)
    rw [hl, batches_nil]
    rfl
  | succ n ih =>
    intro l h
    by_cases hl : l = []
    · rw [hl, batches_nil]
      rfl
    · have hn : 0 < l.length := List.length_pos.mpr hl
      rw [batches_cons B hB l hl, List.flatten_cons,
        ih (l.drop B) (by rw [List.length_drop]; omega), List.take_append_drop]

theorem batches_flatten (B : ℕ) (hB : 0 < B) (l : List α) : (batches B l).flatten = l :=
  batches_flatten_aux B hB l.length l le_rfl

theorem batches_length_le (B : ℕ) (l : List α) (c : List α) (hc : c ∈ batches B l) :
    c.length ≤ B := by
  simp only [batches, List.mem_map, List.mem_range] at hc
  obtain ⟨k, _, rfl⟩ := hc
  exact List.length_take_le _ _

theorem cleaned_texts_eq_map (texts : List String) (h : ∀ t ∈ texts, pyStrip t ≠ "") :
    cleaned_texts texts = texts.map pyStrip := by
  induction texts with
  | nil => rfl
  | cons t ts ih =>
    have ht : pyStrip t ≠ "" := h t (by simp)
    have ih2 := ih (fun x hx => h x (by simp [hx]))
    simp only [cleaned_texts] at ih2 ⊢
    simp [List.filterMap_cons, ht, ih2]

/-- C7: on texts that are all non-empty after stripping, and a provider that
returns one vector per input in order (hP), create_embeddings_batch issues
exactly ⌈N / batch_size⌉ provider calls, each on a consecutive chunk of at
most batch_size stripped texts (their concatenation in call order is exactly
the stripped input sequence), and returns exactly N vectors in input order. -/
theorem embed_many_batching (P : List String → List (List ℚ)) (f : String → List ℚ)
    (texts : List String) (hP : ∀ l, P l = l.map f) (h : ∀ t ∈ texts, pyStrip t ≠ "") :
    ((create_embeddings_batch P texts).2).length
        = (texts.length + batch_size - 1) / batch_size
    ∧ (∀ c ∈ (create_embeddings_batch P texts).2, c.length ≤ batch_size)
    ∧ ((create_embeddings_batch P texts).2).flatten = texts.map pyStrip
    ∧ (create_embeddings_batch P texts).1 = (texts.map pyStrip).map f
    ∧ ((create_embeddings_batch P texts).1).length = texts.length := by
  have hB : 0 < batch_size := by norm_num [batch_size]
  have hcl : cleaned_texts texts = texts.map pyStrip := cleaned_texts_eq_map texts h
  by_cases ht : texts = []
  · subst ht
    have hz : (batch_size - 1) / batch_size = 0 := Nat.div_eq_of_lt (by omega)
    refine ⟨?_, ?_, ?_, ?_, ?_⟩ <;>
      simp [create_embeddings_batch, cleaned_texts, hz]
  · have hne : cleaned_texts texts ≠ [] := by
      rw [hcl]
      simpa using ht
    have hne2 : texts.map pyStrip ≠ [] := by simpa using ht
    have hout : create_embeddings_batch P texts =
        (((batches batch_size (texts.map pyStrip)).map P).flatten,
          batches batch_size (texts.map pyStrip)) := by
      simp only [create_embeddings_batch, hcl]
      rw [if_neg hne2]
    have hfl : (batches batch_size (texts.map pyStrip)).flatten = texts.map pyStrip :=
      batches_flatten batch_size hB _
    have hval : ((batches batch_size (texts.map pyStrip)).map P).flatten
        = (texts.map pyStrip).map f := by
      have e : (batches batch_size (texts.map pyStrip)).map P
          = (batches batch_size (texts.map pyStrip)).map (List.map f) :=
        List.map_congr_left (fun c _ => hP c)
      rw [e, ← List.map_flatten, hfl]
    rw [hout]
    refine ⟨by simp [batches], fun c hc => batches_length_le _ _ c hc, hfl, hval, ?_⟩
    rw [hval]
    simp

/-- C7 witness at a concrete two-text input (a single provider call). -/
theorem embed_many_batching_witness :
    ((create_embeddings_batch (fun l => l.map (fun _ => [1])) ["gov", "ai"]).2).length
        = ((["gov", "ai"] : List String).length + batch_size - 1) / batch_size
    ∧ (∀ c ∈ (create_embeddings_batch (fun l => l.map (fun _ => [1])) ["gov", "ai"]).2,
        c.length ≤ batch_size)
    ∧ ((create_embeddings_batch (fun l => l.map (fun _ => [1])) ["gov", "ai"]).2).flatten
        = (["gov", "ai"] : List String).map pyStrip
    ∧ (create_embeddings_batch (fun l => l.map (fun _ => [1])) ["gov", "ai"]).1
        = ((["gov", "ai"] : List String).map pyStrip).map (fun _ => [1])
    ∧ ((create_embeddings_batch (fun l => l.map (fun _ => [1])) ["gov", "ai"]).1).length
        = (["gov", "ai"] : List String).length :=
  embed_many_batching (fun l => l.map (fun _ => [1])) (fun _ => [1]) ["gov", "ai"]
    (fun _ => rfl) (by decide)

theorem collectSims_isSome (query : List ℚ) (texts : List String) (threshold : ℚ) :
    ∀ (es : List (List ℚ)) (i : ℕ), i + es.length ≤ texts.length →
      ∃ sims, collectSims query texts threshold i es = some sims := by
  intro es
  induction es with
  | nil => exact fun i _ => ⟨[], rfl⟩
  | cons e es ih =>
    intro i h
    have hi : i < texts.length := by simp only [List.length_cons] at h; omega
    obtain ⟨sims, hsims⟩ := ih (i + 1) (by simp only [List.length_cons] at h; omega)
    by_cases hs : threshold ≤ cosine_similarity query e
    · exact ⟨(texts[i], cosine_similarity query e) :: sims,
        by simp [collectSims, hs, List.getElem?_eq_getElem hi, hsims]⟩
    · exact ⟨sims, by simp [collectSims, hs, hsims]⟩

theorem collectSims_score (query : List ℚ) (texts : List String) (threshold : ℚ) :
    ∀ (es : List (List ℚ)) (i : ℕ) (sims : List (String × ℚ)),
      collectSims query texts threshold i es = some sims → ∀ p ∈ sims, threshold ≤ p.2 := by
  intro es
  induction es with
  | nil =>
    intro i sims h p hp
    simp only [collectSims, Option.some.injEq] at h
    subst h
    simp at hp
  | cons e es ih =>
    intro i sims h p hp
    by_cases hs : threshold ≤ cosine_similarity query e
    · rcases hidx : texts[i]? with _ | t
      · simp [collectSims, hs, hidx] at h
      · rcases hrec : collectSims query texts threshold (i + 1) es with _ | rest
        · simp [collectSims, hs, hidx, hrec] at h
        · simp only [collectSims, hs, hidx, hrec, if_true, Option.map_some',
            Option.some.injEq] at h
          subst h
          rcases List.mem_cons.mp hp with hp1 | hp1
          · rw [hp1]
            exact hs
          · exact ih (i + 1) rest hrec p hp1
    · exact ih (i + 1) sims (by simpa [collectSims, hs] using h) p hp

theorem collectSims_length (query : List ℚ) (texts : List String) (threshold : ℚ) :
    ∀ (es : List (List ℚ)) (i : ℕ) (sims : List (String × ℚ)),
      collectSims query texts threshold i es = some sims →
      sims.length = (es.filter (fun e => decide (threshold ≤ cosine_similarity query e))).length := by
  intro es
  induction es with
  | nil =>
    intro i sims h
    simp only [collectSims, Option.some.injEq] at h
    subst h
    rfl
  | cons e es ih =>
    intro i sims h
    by_cases hs : threshold ≤ cosine_similarity query e
    · rcases hidx : texts[i]? with _ | t
      · simp [collectSims, hs, hidx] at h
      · rcases hrec : collectSims query texts threshold (i + 1) es with _ | rest
        · simp [collectSims, hs, hidx, hrec] at h
        · simp only [collectSims, hs, hidx, hrec, if_true, Option.map_some',
            Option.some.injEq] at h
          subst h
          simp [List.filter_cons, hs, ih (i + 1) rest hrec]
    · have := ih (i + 1) sims (by simpa [collectSims, hs] using h)
      simp [List.filter_cons, hs, this]

/-- C2 (amended): find_similar_texts performs no length validation at all —
whenever the texts list is at least as long as the vector list, mismatched
included, it returns a normal result rather than raising anything. -/
theorem rank_no_length_check (query : List ℚ) (embs : List (List ℚ)) (texts : List String)
    (top_k : ℤ) (threshold : ℚ) (h : embs.length ≤ texts.length) :
    (find_similar_texts query embs texts top_k threshold).isSome = true := by
  obtain ⟨sims, hsims⟩ := collectSims_isSome query texts threshold embs 0 (by omega)
  simp [find_similar_texts, hsims]

theorem ratSqrt_one : ratSqrt 1 = 1 := by
  have h1 : (1 : ℚ).num.toNat = 1 := by decide
  have h2 : (1 : ℚ).den = 1 := by decide
  rw [ratSqrt, h1, h2]
  norm_num [isqrt, isqrtAux]

theorem norm_one_single : norm [(1 : ℚ)] = 1 := by
  have hd : dot [(1 : ℚ)] [1] = 1 := by simp [dot]
  rw [norm, hd, ratSqrt_one]

theorem cos_one_one : cosine_similarity [(1 : ℚ)] [1] = 1 := by
  have hd : dot [(1 : ℚ)] [1] = 1 := by simp [dot]
  rw [cosine_similarity, hd, norm_one_single]
  norm_num

theorem collect_eval_pair : collectSims [1] ["a", "b"] 0 0 [[1]] = some [("a", 1)] := by
  have h01 : (0 : ℚ) ≤ 1 := by norm_num
  simp [collectSims, cos_one_one, h01]

theorem find_eval_pair : find_similar_texts [1] [[1]] ["a", "b"] 5 0 = some [("a", 1)] := by
  rw [find_similar_texts, collect_eval_pair]
  decide

theorem collect_eval_tie :
    collectSims [1] ["a", "b"] 0 0 [[1], [1]] = some [("a", 1), ("b", 1)] := by
  have h01 : (0 : ℚ) ≤ 1 := by norm_num
  simp [collectSims, cos_one_one, h01]

theorem find_eval_tie :
    find_similar_texts [1] [[1], [1]] ["a", "b"] 5 0 = some [("a", 1), ("b", 1)] := by
  rw [find_similar_texts, collect_eval_tie]
  decide

theorem find_eval_tie_neg :
    find_similar_texts [1] [[1], [1]] ["a", "b"] (-1) 0 = some [("a", 1)] := by
  rw [find_similar_texts, collect_eval_tie]
  decide

/-- C2 counterexample: one candidate vector against two candidate texts — a
nonzero length mismatch — yet find_similar_texts returns a normal result
instead of failing. -/
theorem rank_mismatch_returns :
    ([[(1 : ℚ)]].length ≠ (["a", "b"] : List String).length)
    ∧ find_similar_texts [1] [[1]] ["a", "b"] 5 0 = some [("a", 1)] :=
  ⟨by decide, find_eval_pair⟩

/-- C2 witness at a concrete mismatched input. -/
theorem rank_no_length_check_witness :
    (find_similar_texts [1] [[1]] ["a", "b"] 5 0).isSome = true :=
  rank_no_length_check [1] [[1]] ["a", "b"] 5 0 (by decide)

/-- C3 (amended): with texts at least as numerous as vectors, top_k = 0 yields
an empty result, but a negative top_k yields all surviving candidates except
the last |top_k| (Python's negative slice), which is nonempty whenever more
than |top_k| candidates reach the threshold. -/
theorem rank_nonpositive_top_k (query : List ℚ) (embs : List (List ℚ)) (texts : List String)
    (top_k : ℤ) (threshold : ℚ) (hlen : embs.length ≤ texts.length) (hk : top_k ≤ 0) :
    ∃ out, find_similar_texts query embs texts top_k threshold = some out
      ∧ (top_k = 0 → out = [])
      ∧ (top_k < 0 → out.length =
          (embs.filter (fun e => decide (threshold ≤ cosine_similarity query e))).length
            - (-top_k).toNat) := by
  obtain ⟨sims, hsims⟩ := collectSims_isSome query texts threshold embs 0 (by omega)
  refine ⟨pySliceTo top_k (List.insertionSort scoreGE sims),
    by simp [find_similar_texts, hsims], fun hk0 => ?_, fun hkneg => ?_⟩
  · rw [hk0]
    simp [pySliceTo]
  · have hlen_s : sims.length =
        (embs.filter (fun e => decide (threshold ≤ cosine_similarity query e))).length :=
      collectSims_length query texts threshold embs 0 sims hsims
    have hsort : (List.insertionSort scoreGE sims).length = sims.length :=
      (List.perm_insertionSort scoreGE sims).length_eq
    rw [pySliceTo, if_neg (not_le.mpr hkneg), List.length_take, hsort, hlen_s]
    omega

/-- C3 counterexample: top_k = -1 with two surviving candidates returns one
entry, not the empty result the claim requires for every top_k ≤ 0. -/
theorem rank_negative_top_k_nonempty :
    find_similar_texts [1] [[1], [1]] ["a", "b"] (-1) 0 = some [("a", 1)]
    ∧ some [(("a" : String), (1 : ℚ))] ≠ some ([] : List (String × ℚ)) :=
  ⟨find_eval_tie_neg, by simp⟩

/-- C3 witness at a concrete input with a negative top_k. -/
theorem rank_nonpositive_top_k_witness :
    ∃ out, find_similar_texts [1] [[1], [1]] ["a", "b"] (-1) 0 = some out
      ∧ ((-1 : ℤ) = 0 → out = [])
      ∧ ((-1 : ℤ) < 0 → out.length =
          ([[1], [1]].filter
            (fun e => decide ((0 : ℚ) ≤ cosine_similarity [1] e))).length
            - (-(-1 : ℤ)).toNat) :=
  rank_nonpositive_top_k [1] [[1], [1]] ["a", "b"] (-1) 0 (by decide) (by decide)

/-- C4 (amended): every returned score is at least the threshold, and for
top_k ≥ 0 the returned sequence has length at most top_k (for negative top_k
the Python slice keeps all but the last |top_k| entries instead). -/
theorem rank_bounds (query : List ℚ) (embs : List (List ℚ)) (texts : List String)
    (top_k : ℤ) (threshold : ℚ) (out : List (String × ℚ))
    (hout : find_similar_texts query embs texts top_k threshold = some out) :
    (∀ p ∈ out, threshold ≤ p.2) ∧ (0 ≤ top_k → (out.length : ℤ) ≤ top_k) := by
  obtain ⟨sims, hsims, hval⟩ : ∃ sims, collectSims query texts threshold 0 embs = some sims
      ∧ pySliceTo top_k (List.insertionSort scoreGE sims) = out := by
    rcases h : collectSims query texts threshold 0 embs with _ | sims
    · simp [find_similar_texts, h] at hout
    · refine ⟨sims, rfl, ?_⟩
      simpa [find_similar_texts, h] using hout
  subst hval
  constructor
  · intro p hp
    have hp2 : p ∈ List.insertionSort scoreGE sims := by
      have := List.take_subset
        (if 0 ≤ top_k then top_k.toNat
          else (((List.insertionSort scoreGE sims).length : ℤ) + top_k).toNat)
        (List.insertionSort scoreGE sims)
      exact this (by simpa [pySliceTo] using hp)
    exact collectSims_score query texts threshold embs 0 sims hsims p
      (((List.perm_insertionSort scoreGE sims).mem_iff).mp hp2)
  · intro hk
    rw [pySliceTo, if_pos hk, List.length_take]
    omega

/-- C4 counterexample: at top_k = -1 the returned sequence has one entry, so
its length is not at most top_k. -/
theorem rank_negative_top_k_exceeds_bound :
    find_similar_texts [1] [[1], [1]] ["a", "b"] (-1) 0 = some [("a", 1)]
    ∧ ¬ ((([(("a" : String), (1 : ℚ))].length : ℤ)) ≤ -1) :=
  ⟨find_eval_tie_neg, by decide⟩

/-- C4 witness at a concrete input. -/
theorem rank_bounds_witness :
    (∀ p ∈ [(("a" : String), (1 : ℚ))], (0 : ℚ) ≤ p.2)
    ∧ ((0 : ℤ) ≤ 5 → (([(("a" : String), (1 : ℚ))].length : ℤ) ≤ 5)) :=
  rank_bounds [1] [[1]] ["a", "b"] 5 0 [("a", 1)] find_eval_pair

theorem filter_orderedInsert_score (s : ℚ) (x : String × ℚ) :
    ∀ m : List (String × ℚ),
      (List.orderedInsert scoreGE x m).filter (fun p => decide (p.2 = s))
        = ((x :: m).filter (fun p => decide (p.2 = s))) := by
  intro m
  induction m with
  | nil => rfl
  | cons b bs ih =>
    by_cases hr : scoreGE x b
    · simp [List.orderedInsert, hr]
    · have hlt : x.2 < b.2 := not_le.mp hr
      simp only [List.orderedInsert, if_neg hr]
      by_cases hx : x.2 = s
      · have hb : ¬ (b.2 = s) := by
          rw [← hx]
          exact ne_of_gt hlt
        simp [List.filter_cons, hb, hx, ih]
      · simp [List.filter_cons, hx, ih]

theorem filter_insertionSort_score (s : ℚ) (l : List (String × ℚ)) :
    (List.insertionSort scoreGE l).filter (fun p => decide (p.2 = s))
      = l.filter (fun p => decide (p.2 = s)) := by
  induction l with
  | nil => rfl
  | cons x xs ih =>
    simp only [List.insertionSort]
    rw [filter_orderedInsert_score s x (List.insertionSort scoreGE xs)]
    simp [List.filter_cons, ih]

/-- C5: the returned pairs are pairwise ordered by score descending, and for
every score value the returned pairs with that score form a prefix of the
threshold-surviving pairs with that score in original candidate-index order
(the pre-sort accumulation list sims) — Python's sort is stable and slicing
a prefix preserves that order. -/
theorem rank_sorted_stable (query : List ℚ) (embs : List (List ℚ)) (texts : List String)
    (top_k : ℤ) (threshold : ℚ) (sims out : List (String × ℚ))
    (hsims : collectSims query texts threshold 0 embs = some sims)
    (hout : find_similar_texts query embs texts top_k threshold = some out) :
    List.Pairwise (fun a b => b.2 ≤ a.2) out
    ∧ ∀ s : ℚ, out.filter (fun p => decide (p.2 = s))
        <+: sims.filter (fun p => decide (p.2 = s)) := by
  have hval : out = pySliceTo top_k (List.insertionSort scoreGE sims) := by
    have := hout
    simp only [find_similar_texts, hsims, Option.map_some', Option.some.injEq] at this
    exact this.symm
  subst hval
  constructor
  · have hs : List.Pairwise scoreGE (List.insertionSort scoreGE sims) :=
      List.sorted_insertionSort scoreGE sims
    exact List.Pairwise.sublist (List.take_sublist _ _) hs
  · intro s
    have hpre : pySliceTo top_k (List.insertionSort scoreGE sims)
        <+: List.insertionSort scoreGE sims := List.take_prefix _ _
    have hfil := List.IsPrefix.filter (fun p => decide (p.2 = s)) hpre
    rwa [filter_insertionSort_score] at hfil

/-- C5 witness at a concrete input with a score tie. -/
theorem rank_sorted_stable_witness :
    List.Pairwise (fun a b => b.2 ≤ a.2) [(("a" : String), (1 : ℚ)), ("b", 1)]
    ∧ [(("a" : String), (1 : ℚ)), ("b", 1)].filter (fun p => decide (p.2 = (1 : ℚ)))
        <+: [(("a" : String), (1 : ℚ)), ("b", 1)].filter (fun p => decide (p.2 = (1 : ℚ))) :=
  ⟨(rank_sorted_stable [1] [[1], [1]] ["a", "b"] 5 0 [("a", 1), ("b", 1)] [("a", 1), ("b", 1)]
      collect_eval_tie find_eval_tie).1,
   (rank_sorted_stable [1] [[1], [1]] ["a", "b"] 5 0 [("a", 1), ("b", 1)] [("a", 1), ("b", 1)]
      collect_eval_tie find_eval_tie).2 1⟩

/-- C1 (code bug): semantic_search hands find_similar_texts the original
documents list, not the cleaned one whose vectors were produced.  With
documents ["", "a"] the empty text is dropped before embedding, so the single
candidate vector is the embedding of "a", yet the result pairs it with the
text "" — the dropped document appears in the output. -/
theorem semantic_search_pairs_dropped_text :
    semantic_search (fun _ => [1]) "q" ["", "a"] 5 0 = Except.ok [("", 1)] := by
  have hq : create_embedding (fun _ => ([1] : List ℚ)) "q" = (some [1], ["q"]) := by
    have hs : pyStrip "q" = "q" := by decide
    simp [create_embedding, hs]
  have hb : create_embeddings_batch (fun l => l.map (fun _ => ([1] : List ℚ))) ["", "a"]
      = ([[1]], [["a"]]) := by decide
  have hcollect : collectSims [1] ["", "a"] 0 0 [[1]] = some [("", 1)] := by
    have h01 : (0 : ℚ) ≤ 1 := by norm_num
    simp [collectSims, cos_one_one, h01]
  have hfind : find_similar_texts [1] [[1]] ["", "a"] 5 0 = some [("", 1)] := by
    rw [find_similar_texts, hcollect]
    decide
  simp only [semantic_search, hq, hb, hfind]

end EmbeddingUtils
